import Mathlib

/-!
Verification of the tic-tac-toe game-state engine of this repository.

The source is a React component (src/src/App.jsx).  The game state lives in
five `useState` hooks: `squares` (an array of 9 cells, each `null`, `'X'` or
`'O'`), `isXNext`, `scores` (`{X, O, draws}`), `gameStarted` and
`hasRecordedResult`.  We embed the board as a total function `Fin 9 → Cell`
(the source initialises it with `Array(9).fill(null)` and every mutation
keeps the length at 9; cell-click events always carry the index of one of
the 9 rendered squares).  Each event handler becomes a pure function on a
`GameState` record; the score-recording `useEffect` becomes the function
`recordResult` applied after a state change.
-/

/-- A mark on the board: the JS strings `'X'` and `'O'`. -/
inductive Player where
  | X : Player
  | O : Player
deriving DecidableEq, Repr

/-- A cell of the board: `none` is the JS `null` (empty), `some p` a mark. -/
abbrev Cell : Type := Option Player

/-- The board: 9 cells indexed 0..8, as in `Array(9).fill(null)`. -/
abbrev Board : Type := Fin 9 → Cell

/-- A winning line: a triple of board indices. -/
abbrev Line : Type := Fin 9 × Fin 9 × Fin 9

/-- The 8 fixed winning lines, in the order of the source `WINNING_LINES`. -/
def WINNING_LINES : List Line :=
  [(0, 1, 2), (3, 4, 5), (6, 7, 8),
   (0, 3, 6), (1, 4, 7), (2, 5, 8),
   (0, 4, 8), (2, 4, 6)]

/-- The check done for one line inside `calculateWinner`:
`squares[a] && squares[a] === squares[b] && squares[a] === squares[c]`
yields the (necessarily non-empty) mark held by all three cells. -/
def lineWinner (squares : Board) (l : Line) : Option Player :=
  match squares l.1 with
  | none => none
  | some p => if squares l.2.1 = some p ∧ squares l.2.2 = some p then some p else none

/-- `calculateWinner(squares)`: scan `WINNING_LINES` in order, return the
first `{player, line}` whose three cells hold the same non-empty mark,
or `null` (here `none`). -/
def calculateWinner (squares : Board) : Option (Player × Line) :=
  WINNING_LINES.findSome? (fun l => (lineWinner squares l).map (fun p => (p, l)))

/-- `squares.every(Boolean)`: every cell holds a mark. -/
def boardFull (squares : Board) : Bool :=
  (List.finRange 9).all (fun i => (squares i).isSome)

/-- `isDraw = squares.every(Boolean) && !winnerInfo`. -/
def isDraw (squares : Board) : Bool :=
  boardFull squares && (calculateWinner squares).isNone

/-- `isRoundOver = Boolean(winnerInfo) || isDraw`. -/
def isRoundOver (squares : Board) : Bool :=
  (calculateWinner squares).isSome || isDraw squares

/-- The derived round outcome of the spec data model:
`InProgress | Won(player, winningLine) | Draw`. -/
inductive RoundOutcome where
  | InProgress : RoundOutcome
  | Won : Player → Line → RoundOutcome
  | Draw : RoundOutcome
deriving DecidableEq, Repr

/-- `evaluate(board)`: the round outcome the component derives from the
board, combining `winnerInfo` (`calculateWinner`) and `isDraw` exactly as
lines 69-71 of the source do. -/
def evaluate (squares : Board) : RoundOutcome :=
  match calculateWinner squares with
  | some (p, l) => RoundOutcome.Won p l
  | none => if boardFull squares then RoundOutcome.Draw else RoundOutcome.InProgress

/-- The score counters `{X: 0, O: 0, draws: 0}`. -/
structure Scores where
  X : Nat
  O : Nat
  draws : Nat
deriving DecidableEq, Repr

/-- The full game state held by the component. -/
structure GameState where
  squares : Board
  isXNext : Bool
  scores : Scores
  gameStarted : Bool
  hasRecordedResult : Bool

/-- The all-empty board `Array(9).fill(null)`. -/
def emptyBoard : Board := fun _ => none

/-- The initial component state. -/
def initialState : GameState :=
  { squares := emptyBoard
    isXNext := true
    scores := { X := 0, O := 0, draws := 0 }
    gameStarted := false
    hasRecordedResult := false }

/-- The guard of `handleSquareClick`, negated: a click at `index` succeeds
unless the game has not started, the cell is occupied, or the round is over
(`!gameStarted || squares[index] || winnerInfo || isDraw`). -/
def clickSucceeds (st : GameState) (index : Fin 9) : Bool :=
  st.gameStarted && !(st.squares index).isSome &&
    !(calculateWinner st.squares).isSome && !(isDraw st.squares)

/-- `handleSquareClick(index)`: no-op when the guard fires, otherwise write
the current player mark into the clicked cell and flip the turn.  The
presentation layer only invokes it with the index of one of the 9 rendered
squares, so `index : Fin 9`. -/
def handleSquareClick (st : GameState) (index : Fin 9) : GameState :=
  if !st.gameStarted || (st.squares index).isSome ||
      (calculateWinner st.squares).isSome || isDraw st.squares then st
  else
    { st with
      squares := Function.update st.squares index
        (some (if st.isXNext then Player.X else Player.O))
      isXNext := !st.isXNext }

/-- `resetBoard()`: clear the board, turn back to X, clear the per-round
result-recorded flag. -/
def resetBoard (st : GameState) : GameState :=
  { st with
    squares := emptyBoard
    isXNext := true
    hasRecordedResult := false }

/-- `handleStartGame()`: `setGameStarted(true); resetBoard()`. -/
def handleStartGame (st : GameState) : GameState :=
  { resetBoard st with gameStarted := true }

/-- `handleNewRound()`: no-op unless the game started, else `resetBoard()`. -/
def handleNewRound (st : GameState) : GameState :=
  if !st.gameStarted then st else resetBoard st

/-- `handleResetAll()`: `resetBoard(); setGameStarted(false); setScores({X:0,O:0,draws:0})`. -/
def handleResetAll (st : GameState) : GameState :=
  { resetBoard st with
    gameStarted := false
    scores := { X := 0, O := 0, draws := 0 } }

/-- Increment the winning player's counter:
`{...prev, [winnerInfo.player]: prev[winnerInfo.player] + 1}`. -/
def bumpPlayer (s : Scores) : Player → Scores
  | Player.X => { s with X := s.X + 1 }
  | Player.O => { s with O := s.O + 1 }

/-- The score-recording `useEffect` (source lines 385-404), as the pure
state transformation it performs after a state change: return early when
the game has not started or the result is already recorded; otherwise on a
win increment the winner's counter and set the flag, on a draw increment
the draw counter and set the flag. -/
def recordResult (st : GameState) : GameState :=
  if !st.gameStarted then st
  else if st.hasRecordedResult then st
  else
    match calculateWinner st.squares with
    | some (p, _) =>
      { st with scores := bumpPlayer st.scores p, hasRecordedResult := true }
    | none =>
      if isDraw st.squares then
        { st with scores := { st.scores with draws := st.scores.draws + 1 },
                  hasRecordedResult := true }
      else st

/-- Fold a sequence of cell clicks over a state. -/
def playMoves (st : GameState) (moves : List (Fin 9)) : GameState :=
  moves.foldl handleSquareClick st

/-- Number of clicks in `moves` that succeed (actually place a mark) when
played from `st`. -/
def countSuccess (st : GameState) : List (Fin 9) → Nat
  | [] => 0
  | m :: ms =>
    (if clickSucceeds st m then 1 else 0) + countSuccess (handleSquareClick st m) ms

/-- Scan a list of lines in order; the first line whose three cells hold
the same non-empty mark wins; when none matches, a full board is a draw and
otherwise the round is in progress.  Spec wording, used by `evaluateSpec`. -/
def scanLines (squares : Board) : List Line → RoundOutcome
  | [] =>
    if boardFull squares then RoundOutcome.Draw else RoundOutcome.InProgress
  | l :: ls =>
    match squares l.1 with
    | some p =>
      if squares l.2.1 = some p ∧ squares l.2.2 = some p then
        RoundOutcome.Won p l
      else scanLines squares ls
    | none => scanLines squares ls

/-- Modelled from the spec: `evaluate(board) -> RoundOutcome` as worded in
section 4.1 — "checks the 8 winning lines in fixed order, returns first
match; if none and all 9 cells filled, returns Draw; else InProgress".
Written as a direct recursive scan over the list of lines, to be compared
with the composition `evaluate` the component actually computes. -/
def evaluateSpec (squares : Board) : RoundOutcome :=
  scanLines squares WINNING_LINES

/-- Build a board from a 9-element listing, row by row. -/
def boardOfList (cells : List Cell) : Board :=
  fun i => cells.getD i.val none

/-- The cells of a board listed in index order, to state the
"exactly 9 cells" invariant of the data model. -/
def boardCells (b : Board) : List Cell :=
  (List.finRange 9).map b

/-- The example board `[X,X,X,_,O,O,_,_,_]` of the spec. -/
def wonBoardX : Board :=
  boardOfList [some Player.X, some Player.X, some Player.X,
               none, some Player.O, some Player.O,
               none, none, none]

/-- The example full board `[X,O,X,X,O,O,O,X,X]` of the spec (no line). -/
def drawBoard : Board :=
  boardOfList [some Player.X, some Player.O, some Player.X,
               some Player.X, some Player.O, some Player.O,
               some Player.O, some Player.X, some Player.X]

/-- A started game whose board X has just won. -/
def wonState : GameState :=
  { initialState with squares := wonBoardX, gameStarted := true }

/-- A started game whose board is the spec's full drawn board. -/
def drawState : GameState :=
  { initialState with squares := drawBoard, gameStarted := true }

/-- A won round whose result has already been recorded. -/
def recordedState : GameState :=
  { wonState with hasRecordedResult := true }

/-- The state after starting a game and clicking cell 0 (X placed there). -/
def moveState : GameState :=
  handleSquareClick (handleStartGame initialState) 0

/-!  Helper lemmas shared by the claim theorems.  -/

/-- `scanLines` computes the same outcome as the first-match scan hidden in
`List.findSome?`, for any list of lines. -/
theorem scanLines_eq_findSome (squares : Board) (lines : List Line) :
    scanLines squares lines =
      match lines.findSome? (fun l => (lineWinner squares l).map (fun p => (p, l))) with
      | some (p, l) => RoundOutcome.Won p l
      | none =>
        if boardFull squares then RoundOutcome.Draw else RoundOutcome.InProgress := by
  induction lines with
  | nil => simp [scanLines, List.findSome?]
  | cons l ls ih =>
    rw [List.findSome?]
    cases h : squares l.1 with
    | none =>
      simp only [scanLines, h, lineWinner, Option.map_none]
      exact ih
    | some p =>
      by_cases hbc : squares l.2.1 = some p ∧ squares l.2.2 = some p
      · simp [scanLines, h, lineWinner, hbc]
      · simp only [scanLines, h, lineWinner, hbc, if_neg, Option.map_none]
        simpa [hbc] using ih

/-- A successful first-match in `calculateWinner` names a member line whose
check succeeded. -/
theorem findSome_line_sound (squares : Board) (p : Player) (l : Line)
    (lines : List Line)
    (h : lines.findSome? (fun l => (lineWinner squares l).map (fun p => (p, l))) =
      some (p, l)) :
    l ∈ lines ∧ lineWinner squares l = some p := by
  induction lines with
  | nil => simp [List.findSome?] at h
  | cons m ms ih =>
    rw [List.findSome?] at h
    cases hm : lineWinner squares m with
    | some q =>
      rw [hm] at h
      simp only [Option.map_some', Option.some.injEq, Prod.mk.injEq] at h
      obtain ⟨rfl, rfl⟩ := h
      exact ⟨List.mem_cons_self _ _, hm⟩
    | none =>
      rw [hm] at h
      simp only [Option.map_none'] at h
      obtain ⟨hmem, hw⟩ := ih h
      exact ⟨List.mem_cons_of_mem _ hmem, hw⟩

/-- A line check that returns a player pins all three cells to that mark. -/
theorem lineWinner_cells (squares : Board) (l : Line) (p : Player)
    (h : lineWinner squares l = some p) :
    squares l.1 = some p ∧ squares l.2.1 = some p ∧ squares l.2.2 = some p := by
  cases ha : squares l.1 with
  | none => simp [lineWinner, ha] at h
  | some q =>
    simp only [lineWinner, ha] at h
    split at h
    · obtain rfl := Option.some.inj h
      exact ⟨rfl, by assumption⟩
    · exact absurd h (by simp)

/-!  Claim theorems.  -/

/-- Claim C1: for every board of 9 cells, `evaluate` checks the 8 fixed
winning lines in fixed order and returns the first line whose three cells
hold the same non-empty mark as `Won(player, line)`; if no line matches and
all 9 cells are filled it returns `Draw`; otherwise `InProgress`.  The
component's derivation (`calculateWinner` composed with the draw check) is
proved equal to `evaluateSpec`, the direct transcription of that spec
sentence; determinism and purity are inherent since both sides are total
functions of the board alone. -/
theorem evaluate_matches_spec (squares : Board) :
    evaluate squares = evaluateSpec squares := by
  rw [evaluateSpec, scanLines_eq_findSome]
  rfl

/-- Claim C2: on the board `[X,X,X,_,O,O,_,_,_]`, `evaluate` returns
`Won(X, [0,1,2])`; on the full board `[X,O,X,X,O,O,O,X,X]`, which has no
completed line, `evaluate` returns `Draw`. -/
theorem evaluate_examples :
    evaluate wonBoardX = RoundOutcome.Won Player.X (0, 1, 2) ∧
    calculateWinner drawBoard = none ∧
    boardFull drawBoard = true ∧
    evaluate drawBoard = RoundOutcome.Draw := by
  decide

/-- Claim C9: whenever `calculateWinner` (and hence `evaluate`) reports a
winner, the returned line is one of the 8 fixed winning triples, the player
is a non-empty mark, the three cells of the line all hold exactly that
mark, and the board is not simultaneously a draw. -/
theorem calculateWinner_sound (squares : Board) (p : Player) (l : Line)
    (h : calculateWinner squares = some (p, l)) :
    l ∈ WINNING_LINES ∧
    (p = Player.X ∨ p = Player.O) ∧
    squares l.1 = some p ∧ squares l.2.1 = some p ∧ squares l.2.2 = some p ∧
    isDraw squares = false ∧
    evaluate squares = RoundOutcome.Won p l := by
  obtain ⟨hmem, hw⟩ := findSome_line_sound squares p l WINNING_LINES h
  obtain ⟨h1, h2, h3⟩ := lineWinner_cells squares l p hw
  refine ⟨hmem, ?_, h1, h2, h3, ?_, ?_⟩
  · cases p
    · exact Or.inl rfl
    · exact Or.inr rfl
  · simp [isDraw, h]
  · simp [evaluate, h]

/-- Witness for C9 at the spec's example winning board. -/
theorem calculateWinner_sound_witness :
    ((0, 1, 2) : Line) ∈ WINNING_LINES ∧
    (Player.X = Player.X ∨ Player.X = Player.O) ∧
    wonBoardX 0 = some Player.X ∧
    wonBoardX 1 = some Player.X ∧
    wonBoardX 2 = some Player.X ∧
    isDraw wonBoardX = false ∧
    evaluate wonBoardX = RoundOutcome.Won Player.X (0, 1, 2) :=
  calculateWinner_sound wonBoardX Player.X (0, 1, 2) (by decide)

/-- When the guard passes, `handleSquareClick` is exactly the write-and-flip
update. -/
theorem handleSquareClick_success (st : GameState) (i : Fin 9)
    (hs : clickSucceeds st i = true) :
    handleSquareClick st i =
      { st with
        squares := Function.update st.squares i
          (some (if st.isXNext then Player.X else Player.O)),
        isXNext := !st.isXNext } := by
  simp only [clickSucceeds, Bool.and_eq_true, Bool.not_eq_true'] at hs
  obtain ⟨⟨⟨hg, ho⟩, hw⟩, hd⟩ := hs
  unfold handleSquareClick
  simp [hg, ho, hw, hd]

/-- When the guard fires, `handleSquareClick` leaves the whole state
unchanged. -/
theorem handleSquareClick_noop (st : GameState) (i : Fin 9)
    (hs : clickSucceeds st i = false) :
    handleSquareClick st i = st := by
  unfold handleSquareClick
  split
  · rfl
  · exfalso
    next hcond =>
      simp only [Bool.or_eq_true, not_or, Bool.not_eq_true', Bool.not_eq_true] at hcond
      obtain ⟨⟨⟨hg, ho⟩, hw⟩, hd⟩ := hcond
      simp [clickSucceeds, hg, ho, hw, hd] at hs

/-- Claim C3: for every state and index, `placeMark(index)` is a silent
no-op (the entire state is unchanged) whenever the game has not started,
the round is already over (won or drawn), or the clicked cell is occupied;
in all other cases it writes the current player's mark into that cell and
flips the turn. -/
theorem placeMark_cases (st : GameState) (i : Fin 9) :
    ((st.gameStarted = false ∨ (st.squares i).isSome = true ∨
        (calculateWinner st.squares).isSome = true ∨ isDraw st.squares = true) →
      handleSquareClick st i = st) ∧
    (st.gameStarted = true → st.squares i = none →
      calculateWinner st.squares = none → isDraw st.squares = false →
      handleSquareClick st i =
        { st with
          squares := Function.update st.squares i
            (some (if st.isXNext then Player.X else Player.O)),
          isXNext := !st.isXNext }) := by
  constructor
  · intro h
    unfold handleSquareClick
    rcases h with h | h | h | h <;> simp [h]
  · intro h1 h2 h3 h4
    unfold handleSquareClick
    simp [h1, h2, h3, h4]

/-- Witness for C3: a click before the game starts is a no-op; the first
click of a fresh game writes X into the cell and flips the turn. -/
theorem placeMark_cases_witness :
    handleSquareClick initialState 0 = initialState ∧
    handleSquareClick (handleStartGame initialState) 0 =
      { handleStartGame initialState with
        squares := Function.update (handleStartGame initialState).squares 0
          (some (if (handleStartGame initialState).isXNext
                 then Player.X else Player.O)),
        isXNext := !(handleStartGame initialState).isXNext } :=
  ⟨(placeMark_cases initialState 0).1 (Or.inl rfl),
   (placeMark_cases (handleStartGame initialState) 0).2 rfl rfl (by decide) (by decide)⟩

/-- Claim C6: the three score counters persist across rounds: `startGame`,
`newRound` and `placeMark` leave them unchanged, and the only operation
that resets them is `resetAll`, which zeroes all counters, clears the
board, and sets the lifecycle back to not-started. -/
theorem scores_persist (st : GameState) (i : Fin 9) :
    (handleStartGame st).scores = st.scores ∧
    (handleNewRound st).scores = st.scores ∧
    (handleSquareClick st i).scores = st.scores ∧
    (handleResetAll st).scores = { X := 0, O := 0, draws := 0 } ∧
    (handleResetAll st).squares = emptyBoard ∧
    (handleResetAll st).gameStarted = false := by
  refine ⟨rfl, ?_, ?_, rfl, rfl, rfl⟩
  · unfold handleNewRound
    split <;> rfl
  · unfold handleSquareClick
    split <;> rfl

/-- Claim C7: `newRound` has the same effect as `startGame` (board cleared,
lifecycle in-round, turn back to X, result-recorded flag cleared) whenever
the game is already started (in-round or round-over), and is a complete
no-op when the game has not started. -/
theorem newRound_matches_startGame (st : GameState) :
    (st.gameStarted = true →
      handleNewRound st = handleStartGame st ∧
      (handleNewRound st).squares = emptyBoard ∧
      (handleNewRound st).gameStarted = true ∧
      (handleNewRound st).isXNext = true ∧
      (handleNewRound st).hasRecordedResult = false) ∧
    (st.gameStarted = false → handleNewRound st = st) := by
  constructor
  · intro h
    cases st with
    | mk sq nx sc gs hr =>
      simp only at h
      subst h
      exact ⟨rfl, rfl, rfl, rfl, rfl⟩
  · intro h
    unfold handleNewRound
    simp [h]

/-- Witness for C7: after starting a game, `newRound` equals `startGame`;
before starting, it is a no-op. -/
theorem newRound_matches_startGame_witness :
    (handleNewRound (handleStartGame initialState) =
        handleStartGame (handleStartGame initialState) ∧
      (handleNewRound (handleStartGame initialState)).squares = emptyBoard ∧
      (handleNewRound (handleStartGame initialState)).gameStarted = true ∧
      (handleNewRound (handleStartGame initialState)).isXNext = true ∧
      (handleNewRound (handleStartGame initialState)).hasRecordedResult = false) ∧
    handleNewRound initialState = initialState :=
  ⟨(newRound_matches_startGame (handleStartGame initialState)).1 rfl,
   (newRound_matches_startGame initialState).2 rfl⟩

/-- Claim C10: frame property of a successful placement: when
`placeMark(index)` succeeds, every board cell other than the clicked one is
unchanged, and the scores, the result-recorded flag, and the game-started
flag are all unchanged by the placement itself. -/
theorem placeMark_frame (st : GameState) (i j : Fin 9)
    (hs : clickSucceeds st i = true) :
    (j ≠ i → (handleSquareClick st i).squares j = st.squares j) ∧
    (handleSquareClick st i).squares i =
      some (if st.isXNext then Player.X else Player.O) ∧
    (handleSquareClick st i).scores = st.scores ∧
    (handleSquareClick st i).hasRecordedResult = st.hasRecordedResult ∧
    (handleSquareClick st i).gameStarted = st.gameStarted := by
  rw [handleSquareClick_success st i hs]
  exact ⟨fun hj => Function.update_noteq hj _ _,
    Function.update_same _ _ _, rfl, rfl, rfl⟩

/-- Witness for C10 at the first move of a fresh game: clicking cell 0
leaves cell 1, the scores and the flags untouched. -/
theorem placeMark_frame_witness :
    ((1 : Fin 9) ≠ (0 : Fin 9) →
      (handleSquareClick (handleStartGame initialState) 0).squares 1 =
        (handleStartGame initialState).squares 1) ∧
    (handleSquareClick (handleStartGame initialState) 0).squares 0 =
      some (if (handleStartGame initialState).isXNext
            then Player.X else Player.O) ∧
    (handleSquareClick (handleStartGame initialState) 0).scores =
      (handleStartGame initialState).scores ∧
    (handleSquareClick (handleStartGame initialState) 0).hasRecordedResult =
      (handleStartGame initialState).hasRecordedResult ∧
    (handleSquareClick (handleStartGame initialState) 0).gameStarted =
      (handleStartGame initialState).gameStarted :=
  placeMark_frame (handleStartGame initialState) 0 1 (by decide)

/-- Parity of the turn flag: folding a click sequence over a state flips
`isXNext` once per successful placement. -/
theorem playMoves_isXNext (moves : List (Fin 9)) :
    ∀ st : GameState,
      (playMoves st moves).isXNext =
        (if countSuccess st moves % 2 = 0 then st.isXNext else !st.isXNext) := by
  induction moves with
  | nil =>
    intro st
    simp [playMoves, countSuccess]
  | cons m ms ih =>
    intro st
    have h1 : playMoves st (m :: ms) = playMoves (handleSquareClick st m) ms := rfl
    rw [h1, ih]
    by_cases hc : clickSucceeds st m = true
    · have hx : (handleSquareClick st m).isXNext = !st.isXNext := by
        rw [handleSquareClick_success st m hc]
      have hcount : countSuccess st (m :: ms) =
          1 + countSuccess (handleSquareClick st m) ms := by
        simp [countSuccess, hc]
      rw [hx, hcount]
      by_cases hk : countSuccess (handleSquareClick st m) ms % 2 = 0
      · have hodd : ¬(1 + countSuccess (handleSquareClick st m) ms) % 2 = 0 := by
          omega
        simp [hk, hodd]
      · have heven : (1 + countSuccess (handleSquareClick st m) ms) % 2 = 0 := by
          omega
        simp [hk, heven]
    · have hc2 : clickSucceeds st m = false := by simpa using hc
      rw [handleSquareClick_noop st m hc2]
      simp [countSuccess, hc2, handleSquareClick_noop st m hc2]

/-- Claim C4: starting from a fresh round, after `n` successful placements
the current player is X exactly when `n` is even; each successful placement
flips the turn exactly once and each no-op placement leaves the whole state
(hence the turn) unchanged. -/
theorem turn_alternation (st : GameState) (i : Fin 9) (moves : List (Fin 9)) :
    ((playMoves (handleStartGame st) moves).isXNext = true ↔
      countSuccess (handleStartGame st) moves % 2 = 0) ∧
    (clickSucceeds st i = true →
      (handleSquareClick st i).isXNext = !st.isXNext) ∧
    (clickSucceeds st i = false → handleSquareClick st i = st) := by
  refine ⟨?_, ?_, handleSquareClick_noop st i⟩
  · rw [playMoves_isXNext moves (handleStartGame st)]
    have hx : (handleStartGame st).isXNext = true := rfl
    rw [hx]
    by_cases h : countSuccess (handleStartGame st) moves % 2 = 0 <;> simp [h]
  · intro h
    rw [handleSquareClick_success st i h]

/-- Witness for C4: playing cells 0, 0, 1 from a fresh game makes two
successful placements (the second click on cell 0 is rejected), so the
turn is back to X; a single successful click flips the turn; a click
before the game starts is a no-op. -/
theorem turn_alternation_witness :
    ((playMoves (handleStartGame initialState) [0, 0, 1]).isXNext = true ↔
      countSuccess (handleStartGame initialState) [0, 0, 1] % 2 = 0) ∧
    (handleSquareClick (handleStartGame initialState) 0).isXNext =
      !(handleStartGame initialState).isXNext ∧
    handleSquareClick initialState 0 = initialState :=
  ⟨(turn_alternation initialState 0 [0, 0, 1]).1,
   (turn_alternation (handleStartGame initialState) 0 []).2.1 (by decide),
   (turn_alternation initialState 0 []).2.2 (by decide)⟩

/-- The recording effect is a no-op when the game has not started. -/
theorem recordResult_not_started (st : GameState)
    (h : st.gameStarted = false) : recordResult st = st := by
  unfold recordResult
  simp [h]

/-- The recording effect is a no-op once the flag is set. -/
theorem recordResult_recorded (st : GameState)
    (h : st.hasRecordedResult = true) : recordResult st = st := by
  unfold recordResult
  simp [h]

/-- On an unrecorded win the effect bumps the winner's counter and sets
the flag. -/
theorem recordResult_won (st : GameState) (p : Player) (l : Line)
    (hg : st.gameStarted = true) (hr : st.hasRecordedResult = false)
    (hw : calculateWinner st.squares = some (p, l)) :
    recordResult st =
      { st with scores := bumpPlayer st.scores p, hasRecordedResult := true } := by
  unfold recordResult
  simp [hg, hr, hw]

/-- On an unrecorded draw the effect bumps the draw counter and sets the
flag. -/
theorem recordResult_draw (st : GameState)
    (hg : st.gameStarted = true) (hr : st.hasRecordedResult = false)
    (hw : calculateWinner st.squares = none) (hd : isDraw st.squares = true) :
    recordResult st =
      { st with scores := { st.scores with draws := st.scores.draws + 1 },
                hasRecordedResult := true } := by
  unfold recordResult
  simp [hg, hr, hw, hd]

/-- While the round is in progress, the effect records nothing. -/
theorem recordResult_in_progress (st : GameState)
    (hw : calculateWinner st.squares = none) (hd : isDraw st.squares = false) :
    recordResult st = st := by
  unfold recordResult
  simp [hw, hd]

/-- The recording effect is idempotent: re-running it after it has fired
(or when it has nothing to do) changes nothing. -/
theorem recordResult_idem (st : GameState) :
    recordResult (recordResult st) = recordResult st := by
  by_cases hg : st.gameStarted = true
  · by_cases hr : st.hasRecordedResult = true
    · rw [recordResult_recorded st hr]
      exact recordResult_recorded st hr
    · have hr2 : st.hasRecordedResult = false := by simpa using hr
      cases hw : calculateWinner st.squares with
      | some pl =>
        obtain ⟨p, l⟩ := pl
        rw [recordResult_won st p l hg hr2 hw]
        exact recordResult_recorded _ rfl
      | none =>
        by_cases hd : isDraw st.squares = true
        · rw [recordResult_draw st hg hr2 hw hd]
          exact recordResult_recorded _ rfl
        · have hd2 : isDraw st.squares = false := by simpa using hd
          rw [recordResult_in_progress st hw hd2]
          exact recordResult_in_progress st hw hd2
  · have hg2 : st.gameStarted = false := by simpa using hg
    rw [recordResult_not_started st hg2]
    exact recordResult_not_started st hg2

/-- Claim C5: score recording is edge-triggered and happens exactly once
per round: on an unrecorded transition into a win the winner's counter is
incremented by exactly 1 (the other counters unchanged) and the
result-recorded flag is set; on an unrecorded transition into a draw the
draw counter is incremented by exactly 1 likewise; once the flag is set
re-running the effect changes nothing, the effect is idempotent, and the
flag is cleared (only) by the board reset that starts a round. -/
theorem score_recording (st : GameState) (p : Player) (l : Line) :
    (st.gameStarted = true → st.hasRecordedResult = false →
      calculateWinner st.squares = some (p, l) →
        (recordResult st).scores.X = st.scores.X + (if p = Player.X then 1 else 0) ∧
        (recordResult st).scores.O = st.scores.O + (if p = Player.O then 1 else 0) ∧
        (recordResult st).scores.draws = st.scores.draws ∧
        (recordResult st).hasRecordedResult = true) ∧
    (st.gameStarted = true → st.hasRecordedResult = false →
      calculateWinner st.squares = none → isDraw st.squares = true →
        (recordResult st).scores.draws = st.scores.draws + 1 ∧
        (recordResult st).scores.X = st.scores.X ∧
        (recordResult st).scores.O = st.scores.O ∧
        (recordResult st).hasRecordedResult = true) ∧
    (st.hasRecordedResult = true → recordResult st = st) ∧
    recordResult (recordResult st) = recordResult st ∧
    (resetBoard st).hasRecordedResult = false := by
  refine ⟨?_, ?_, recordResult_recorded st, recordResult_idem st, rfl⟩
  · intro hg hr hw
    rw [recordResult_won st p l hg hr hw]
    cases p <;> simp [bumpPlayer]
  · intro hg hr hw hd
    rw [recordResult_draw st hg hr hw hd]
    exact ⟨rfl, rfl, rfl, rfl⟩

/-- Witness for C5 at the spec's example boards: recording the X win bumps
only X's counter, recording the draw bumps only the draw counter, a
recorded state is left alone, and re-running the effect is harmless. -/
theorem score_recording_witness :
    ((recordResult wonState).scores.X =
        wonState.scores.X + (if Player.X = Player.X then 1 else 0) ∧
      (recordResult wonState).scores.O =
        wonState.scores.O + (if Player.X = Player.O then 1 else 0) ∧
      (recordResult wonState).scores.draws = wonState.scores.draws ∧
      (recordResult wonState).hasRecordedResult = true) ∧
    ((recordResult drawState).scores.draws = drawState.scores.draws + 1 ∧
      (recordResult drawState).scores.X = drawState.scores.X ∧
      (recordResult drawState).scores.O = drawState.scores.O ∧
      (recordResult drawState).hasRecordedResult = true) ∧
    recordResult recordedState = recordedState ∧
    recordResult (recordResult wonState) = recordResult wonState ∧
    (resetBoard wonState).hasRecordedResult = false :=
  ⟨(score_recording wonState Player.X (0, 1, 2)).1 rfl rfl (by decide),
   (score_recording drawState Player.X (0, 1, 2)).2.1 rfl rfl (by decide) (by decide),
   (score_recording recordedState Player.X (0, 1, 2)).2.2.1 rfl,
   (score_recording wonState Player.X (0, 1, 2)).2.2.2.1,
   (score_recording wonState Player.X (0, 1, 2)).2.2.2.2⟩

/-- Claim C8: every operation keeps the board at exactly 9 cells (the
board type is a total assignment to the 9 indices; `boardCells` lists
them), and a cell once filled is never changed back to empty except by the
full board reset performed by `startGame`, `newRound` (when started) and
`resetAll`. -/
theorem board_invariants (st : GameState) (i j : Fin 9) (p : Player) :
    (boardCells (handleSquareClick st i).squares).length = 9 ∧
    (boardCells (handleStartGame st).squares).length = 9 ∧
    (boardCells (handleNewRound st).squares).length = 9 ∧
    (boardCells (handleResetAll st).squares).length = 9 ∧
    (st.squares j = some p → (handleSquareClick st i).squares j = some p) ∧
    (handleStartGame st).squares = emptyBoard ∧
    (handleResetAll st).squares = emptyBoard ∧
    (st.gameStarted = true → (handleNewRound st).squares = emptyBoard) ∧
    (st.gameStarted = false → (handleNewRound st).squares = st.squares) := by
  refine ⟨?_, ?_, ?_, ?_, ?_, rfl, rfl, ?_, ?_⟩
  · simp [boardCells]
  · simp [boardCells]
  · simp [boardCells]
  · simp [boardCells]
  · intro hj
    by_cases hc : clickSucceeds st i = true
    · rw [handleSquareClick_success st i hc]
      have hne : j ≠ i := by
        intro he
        subst he
        simp only [clickSucceeds, Bool.and_eq_true, Bool.not_eq_true'] at hc
        obtain ⟨⟨⟨hg, ho⟩, hw⟩, hd⟩ := hc
        rw [hj] at ho
        exact absurd ho (by simp)
      exact (Function.update_noteq hne _ _).trans hj
    · rw [handleSquareClick_noop st i (by simpa using hc)]
      exact hj
  · intro hg
    unfold handleNewRound
    simp [hg, resetBoard]
  · intro hg
    unfold handleNewRound
    simp [hg]

/-- Witness for C8: after X has been placed on cell 0, a further click on
cell 1 keeps cell 0 filled with X; new round clears a started board;
before starting, new round leaves the board alone. -/
theorem board_invariants_witness :
    (boardCells (handleSquareClick moveState 1).squares).length = 9 ∧
    (handleSquareClick moveState 1).squares 0 = some Player.X ∧
    (handleNewRound moveState).squares = emptyBoard ∧
    (handleNewRound initialState).squares = initialState.squares :=
  ⟨(board_invariants moveState 1 0 Player.X).1,
   (board_invariants moveState 1 0 Player.X).2.2.2.2.1 (by decide),
   (board_invariants moveState 1 0 Player.X).2.2.2.2.2.2.2.1 (by decide),
   (board_invariants initialState 1 0 Player.X).2.2.2.2.2.2.2.2 rfl⟩
